import Mathlib

/-!
Shallow embedding of `src/scripts/spotlight_stub.c` (the cwm Spotlight relay
stub).  Byte strings are modelled as `List Char`; C string-library calls
(`strstr`, `strchr`, the trim loops) are given as executable Lean functions
with the same first-occurrence semantics; the OS facilities the stub consumes
(`_NSGetExecutablePath`, the command file, `getenv("HOME")`, `access`,
`socket`/`connect`/`send`/`recv`) are abstracted into an `Env` record of their
observable results, and `main` is the straight-line pipeline of the C `main`,
reporting exit code, presentation calls and socket activity counts.
-/

namespace CwmStub

/-- Marker `"error"` (quotes included) searched in the daemon response,
spotlight_stub.c line 180. -/
def errMarker : List Char := "\"error\"".data

/-- Marker `"message"` (quotes included) searched when extracting the error
message, line 182. -/
def msgMarker : List Char := "\"message\"".data

/-- Generic fallback message, line 196. -/
def fallbackMsg : List Char := "Command failed".data

/-- Title used for every dialog and notification, lines 149-196. -/
def cwmErrTitle : List Char := "cwm Error".data

/-- Dialog message when the executable path cannot be located, line 149. -/
def locateFailMsg : List Char := "Failed to locate command file".data

/-- Dialog message when the command file cannot be read, line 155. -/
def readFailMsg : List Char := "Failed to read command file".data

/-- Dialog message when HOME is unavailable, line 161. -/
def socketPathFailMsg : List Char := "Failed to determine socket path".data

/-- Dialog message when the socket path does not exist, lines 167-168; the C
literal contains backslash-n pairs (for osascript), kept verbatim. -/
def daemonNotRunningMsg : List Char :=
  "cwm daemon is not running.\\n\\nStart it with:\\n  cwm daemon start\\n\\nOr enable auto-start:\\n  cwm daemon install".data

/-- Dialog message when connect or send fails, lines 174-175. -/
def connectFailMsg : List Char :=
  "Failed to connect to cwm daemon.\\n\\nTry restarting it:\\n  cwm daemon stop\\n  cwm daemon start".data

/-- Fixed socket path template suffix from SOCKET_PATH_TEMPLATE, line 17. -/
def socketSuffix : List Char := "/.cwm/cwm.sock".data

/-- C `strstr`: the suffix of `hay` starting at the first occurrence of
`needle`, or `none` when `needle` does not occur. -/
def strstr : List Char → List Char → Option (List Char)
  | [], needle => if needle.isPrefixOf [] then some [] else none
  | c :: t, needle => if needle.isPrefixOf (c :: t) then some (c :: t) else strstr t needle

/-- C `strchr` (for non-NUL `c`): the suffix of `l` starting at the first
occurrence of `c`, or `none` when `c` does not occur. -/
def strchr (l : List Char) (c : Char) : Option (List Char) :=
  match l with
  | [] => none
  | x :: t => if x = c then some (x :: t) else strchr t c

/-- Predicate of the skip loop `while (*msg_start == ' ' || *msg_start == '"')`,
line 187. -/
def msg_skip (c : Char) : Bool := c == ' ' || c == '"'

/-- Characters kept by the capture up to `msg_end = strchr(msg_start, '"')`,
lines 188-190. -/
def not_quote (c : Char) : Bool := c != '"'

/-- Error-message extraction of main, lines 182-196: first `"message"`
occurrence in the whole response, first `':'` after it, skip spaces and
quotes, capture up to the next quote; any failure falls back to
`fallbackMsg`. -/
def extract_error_message (response : List Char) : List Char :=
  match strstr response msgMarker with
  | none => fallbackMsg
  | some m1 =>
    match strchr m1 ':' with
    | none => fallbackMsg
    | some m2 =>
      match strchr ((m2.drop 1).dropWhile msg_skip) '"' with
      | none => fallbackMsg
      | some _ => ((m2.drop 1).dropWhile msg_skip).takeWhile not_quote

/-- Response classification of main, lines 180-198: `some msg` when the error
marker occurs (failure with extracted message), `none` on success. -/
def interpret_response (response : List Char) : Option (List Char) :=
  if (strstr response errMarker).isSome then some (extract_error_message response)
  else none

/-- First line of a byte stream, up to and including the first newline
(the stopping rule of C `fgets`). -/
def first_line : List Char → List Char
  | [] => []
  | c :: t => if c = '\n' then [c] else c :: first_line t

/-- C `fgets(buf, size, f)` on a stream whose remaining content is `content`:
`none` at end of file, otherwise at most `size - 1` characters of the first
line. -/
def fgets (content : List Char) (size : Nat) : Option (List Char) :=
  if content = [] then none else some ((first_line content).take (size - 1))

/-- Trailing-newline trim loop of read_command, lines 79-82: remove trailing
`'\n'` and `'\r'` characters. -/
def rtrim_newlines (l : List Char) : List Char :=
  (l.reverse.dropWhile (fun c => c == '\n' || c == '\r')).reverse

/-- read_command, lines 65-85: `file` is the openable content of the command
file (`none` when fopen fails); fgets the first line, then trim trailing
CR/LF. -/
def read_command (file : Option (List Char)) (out_size : Nat) : Option (List Char) :=
  match file with
  | none => none
  | some content =>
    match fgets content out_size with
    | none => none
    | some line => some (rtrim_newlines line)

/-- get_socket_path, lines 88-95: `home` is the result of `getenv("HOME")`
(`none` when unset); snprintf of SOCKET_PATH_TEMPLATE truncates to
`out_size - 1` characters. -/
def get_socket_path (home : Option (List Char)) (out_size : Nat) : Option (List Char) :=
  match home with
  | none => none
  | some h => some ((h ++ socketSuffix).take (out_size - 1))

/-- Observable results of the OS facilities the stub consumes, one process
run: success of `_NSGetExecutablePath` (line 46), content behind
`fopen`/`fgets` (lines 66-71), `getenv("HOME")` (line 89), `access` on the
socket path (line 166), and success of `socket`, `connect`, `send` and the
data (if any) returned by `recv` (lines 99-130). -/
structure Env where
  exeOk : Bool
  file : Option (List Char)
  home : Option (List Char)
  socketExists : Bool
  socketOk : Bool
  connectOk : Bool
  sendOk : Bool
  recvData : Option (List Char)

/-- Outcome of send_to_daemon: success flag, the NUL-terminated response
string, every payload passed to `send`, and counts of `socket`, `close`,
`connect` and `recv` calls. -/
structure SendResult where
  ok : Bool
  response : List Char
  sent : List (List Char)
  opens : Nat
  closes : Nat
  connects : Nat
  recvs : Nat

/-- send_to_daemon, lines 98-139.  The payload is
`snprintf(cmd_with_newline, MAX_CMD_LEN, "%s\n", command)`, hence
`(command ++ ['\n']).take 4095`; `recv` reads at most `resp_size - 1` bytes
and a non-positive return yields the empty response with success. -/
def send_to_daemon (env : Env) (command : List Char) (resp_size : Nat) : SendResult :=
  if !env.socketOk then
    ⟨false, [], [], 0, 0, 0, 0⟩
  else if !env.connectOk then
    ⟨false, [], [], 1, 1, 1, 0⟩
  else if !env.sendOk then
    ⟨false, [], [(command ++ ['\n']).take (4096 - 1)], 1, 1, 1, 0⟩
  else
    match env.recvData with
    | some d => ⟨true, d.take (resp_size - 1), [(command ++ ['\n']).take (4096 - 1)], 1, 1, 1, 1⟩
    | none => ⟨true, [], [(command ++ ['\n']).take (4096 - 1)], 1, 1, 1, 1⟩

/-- One external presentation call: show_error_dialog (blocking, lines 24-30)
or show_notification (non-blocking, lines 33-39), each with title and
message. -/
inductive Presentation where
  | dialog (title message : List Char)
  | notification (title message : List Char)
deriving DecidableEq

/-- Observable outcome of one process run: exit code, presentation calls in
order, payloads sent, and socket activity counts. -/
structure RunResult where
  exitCode : Nat
  calls : List Presentation
  sent : List (List Char)
  opens : Nat
  closes : Nat
  connects : Nat
  recvs : Nat

/-- Tail of main after a successful liveness probe, lines 172-200: relay the
command, then interpret the response. -/
def after_send (sr : SendResult) : RunResult :=
  if !sr.ok then
    ⟨1, [Presentation.dialog cwmErrTitle connectFailMsg], sr.sent, sr.opens, sr.closes, sr.connects, sr.recvs⟩
  else
    match interpret_response sr.response with
    | some msg =>
      ⟨1, [Presentation.notification cwmErrTitle msg], sr.sent, sr.opens, sr.closes, sr.connects, sr.recvs⟩
    | none => ⟨0, [], sr.sent, sr.opens, sr.closes, sr.connects, sr.recvs⟩

/-- main, lines 141-201: the straight-line pipeline with its early-exit
dialogs.  Buffer sizes are those of the C locals: command 4096, socket_path
2048, response 4096. -/
def main (env : Env) : RunResult :=
  if !env.exeOk then
    ⟨1, [Presentation.dialog cwmErrTitle locateFailMsg], [], 0, 0, 0, 0⟩
  else
    match read_command env.file 4096 with
    | none => ⟨1, [Presentation.dialog cwmErrTitle readFailMsg], [], 0, 0, 0, 0⟩
    | some command =>
      match get_socket_path env.home 2048 with
      | none => ⟨1, [Presentation.dialog cwmErrTitle socketPathFailMsg], [], 0, 0, 0, 0⟩
      | some _sock =>
        if !env.socketExists then
          ⟨1, [Presentation.dialog cwmErrTitle daemonNotRunningMsg], [], 0, 0, 0, 0⟩
        else
          after_send (send_to_daemon env command 4096)

/-- A well-formed message field `"message": "x"` as a character list. -/
def msg_field (x : List Char) : List Char := msgMarker ++ ':' :: ' ' :: '"' :: (x ++ ['"'])

/-- An environment in which every OS facility succeeds and `recv` returns no
data. -/
def baseEnv : Env := ⟨true, some ("demo".data), some ("/home/u".data), true, true, true, true, none⟩


/-! ### Lemmas about the embedded C string scanning functions, and the claim theorems -/

/-- A list is a Boolean prefix of itself followed by any tail. -/
theorem isPrefixOf_self_append (l t : List Char) : l.isPrefixOf (l ++ t) = true := by
  induction l with
  | nil => simp [List.isPrefixOf]
  | cons c l ih => simp [List.isPrefixOf, ih]

/-- strstr at a haystack that starts with the needle. -/
theorem strstr_pos (hay p : List Char) (h : p.isPrefixOf hay = true) : strstr hay p = some hay := by
  cases hay with
  | nil => rw [strstr, h]; rfl
  | cons c t => rw [strstr, h]; rfl

/-- strstr steps over a position where the needle does not match. -/
theorem strstr_neg_cons (c : Char) (t p : List Char) (h : p.isPrefixOf (c :: t) = false) :
    strstr (c :: t) p = strstr t p := by
  rw [strstr, h]
  rfl

/-- strstr finds the occurrence at the end of `a` when no earlier position matches. -/
theorem strstr_append_first (a s p : List Char) (hp : p.isPrefixOf s = true)
    (hfirst : ∀ k, k < a.length → p.isPrefixOf ((a ++ s).drop k) = false) :
    strstr (a ++ s) p = some s := by
  induction a with
  | nil => rw [List.nil_append]; exact strstr_pos s p hp
  | cons c a ih =>
    have h0 : p.isPrefixOf (c :: (a ++ s)) = false := by
      simpa using hfirst 0 (by simp)
    rw [List.cons_append, strstr_neg_cons c (a ++ s) p h0]
    exact ih fun k hk => by
      simpa [List.drop_succ_cons] using hfirst (k + 1) (by simpa using Nat.succ_lt_succ hk)

/-- strstr misses when no position of the haystack starts with the needle. -/
theorem strstr_none_of_not_found (l p : List Char) (hp : p ≠ [])
    (h : ∀ k, k < l.length → p.isPrefixOf (l.drop k) = false) : strstr l p = none := by
  induction l with
  | nil =>
    have h0 : p.isPrefixOf ([] : List Char) = false := by
      cases p with
      | nil => exact absurd rfl hp
      | cons c t => rfl
    rw [strstr, h0]
    rfl
  | cons c t ih =>
    have h0 : p.isPrefixOf (c :: t) = false := by simpa using h 0 (by simp)
    rw [strstr_neg_cons c t p h0]
    exact ih fun k hk => by
      simpa [List.drop_succ_cons] using h (k + 1) (by simpa using Nat.succ_lt_succ hk)

/-- strstr hits when some position of the haystack starts with the needle. -/
theorem strstr_isSome_at (l p : List Char) (k : Nat) (h : p.isPrefixOf (l.drop k) = true) :
    (strstr l p).isSome = true := by
  induction l generalizing k with
  | nil =>
    cases p with
    | nil => rfl
    | cons c t => rw [List.drop_nil] at h; exact absurd h (by simp [List.isPrefixOf])
  | cons c t ih =>
    cases hb : p.isPrefixOf (c :: t) with
    | true => rw [strstr_pos (c :: t) p hb]; rfl
    | false =>
      rw [strstr_neg_cons c t p hb]
      cases k with
      | zero => rw [List.drop_zero] at h; rw [hb] at h; exact absurd h (by simp)
      | succ k => exact ih k (by simpa [List.drop_succ_cons] using h)

/-- strchr skips a block without the searched character. -/
theorem strchr_skip (a : List Char) (c : Char) (b : List Char) (h : c ∉ a) :
    strchr (a ++ c :: b) c = some (c :: b) := by
  induction a with
  | nil => simp [strchr]
  | cons x a ih =>
    have hx : x ≠ c := by rintro rfl; exact h (List.mem_cons_self _ _)
    rw [List.cons_append, strchr]
    simp only [hx, if_false]
    exact ih fun hc => h (List.mem_cons_of_mem _ hc)

/-- strchr misses when the character does not occur. -/
theorem strchr_none (l : List Char) (c : Char) (h : c ∉ l) : strchr l c = none := by
  induction l with
  | nil => rfl
  | cons x t ih =>
    have hx : x ≠ c := by rintro rfl; exact h (List.mem_cons_self _ _)
    rw [strchr]
    simp only [hx, if_false]
    exact ih fun hc => h (List.mem_cons_of_mem _ hc)

/-- takeWhile keeps a satisfying block and stops at the first failing element. -/
theorem takeWhile_append_stop (p : Char → Bool) (x : List Char) (y : Char) (b : List Char)
    (hx : ∀ c ∈ x, p c = true) (hy : p y = false) :
    (x ++ y :: b).takeWhile p = x := by
  induction x with
  | nil => simp [List.takeWhile_cons, hy]
  | cons c x ih =>
    rw [List.cons_append, List.takeWhile_cons, hx c (List.mem_cons_self _ _)]
    simp only [if_true]
    rw [ih fun d hd => hx d (List.mem_cons_of_mem _ hd)]

/-- The first line of a newline-free block followed by anything. -/
theorem first_line_append (L rest : List Char) (h : '\n' ∉ L) :
    first_line (L ++ rest) = L ++ first_line rest := by
  induction L with
  | nil => simp
  | cons c L ih =>
    have hc : c ≠ '\n' := by rintro rfl; exact h (List.mem_cons_self _ _)
    rw [List.cons_append, first_line]
    simp only [hc, if_false, List.cons_append]
    rw [ih fun hm => h (List.mem_cons_of_mem _ hm)]

/-- Trailing-newline trim absorbs a final newline. -/
theorem rtrim_newlines_append_nl (L : List Char) :
    rtrim_newlines (L ++ ['\n']) = rtrim_newlines L := by
  simp [rtrim_newlines, List.dropWhile_cons]

theorem extract_msg_of_shape (a x b : List Char)
    (hfirst : ∀ k, k < a.length → msgMarker.isPrefixOf ((a ++ msg_field x ++ b).drop k) = false)
    (hx0 : x ≠ []) (hsp : x.head? ≠ some ' ') (hq0 : x.head? ≠ some '"') (hq : '"' ∉ x) :
    extract_error_message (a ++ msg_field x ++ b) = x := by
  obtain ⟨c, x', rfl⟩ : ∃ c x', x = c :: x' := by
    cases x with
    | nil => exact absurd rfl hx0
    | cons c x' => exact ⟨c, x', rfl⟩
  have hc1 : c ≠ ' ' := fun hcc => hsp (by simp [hcc])
  have hc2 : c ≠ '"' := fun hcc => hq0 (by simp [hcc])
  have hr : a ++ msg_field (c :: x') ++ b
      = a ++ (msgMarker ++ (':' :: ' ' :: '"' :: (c :: (x' ++ '"' :: b)))) := by
    simp [msg_field]
  rw [hr] at hfirst ⊢
  have h1 : strstr (a ++ (msgMarker ++ (':' :: ' ' :: '"' :: (c :: (x' ++ '"' :: b))))) msgMarker
      = some (msgMarker ++ (':' :: ' ' :: '"' :: (c :: (x' ++ '"' :: b)))) :=
    strstr_append_first _ _ _ (isPrefixOf_self_append _ _) hfirst
  have h2 : strchr (msgMarker ++ (':' :: ' ' :: '"' :: (c :: (x' ++ '"' :: b)))) ':'
      = some (':' :: ' ' :: '"' :: (c :: (x' ++ '"' :: b))) :=
    strchr_skip msgMarker ':' _ (by decide)
  have h4 : ((':' :: ' ' :: '"' :: (c :: (x' ++ '"' :: b))).drop 1).dropWhile msg_skip
      = c :: (x' ++ '"' :: b) := by
    simp [List.dropWhile_cons, msg_skip, hc1, hc2]
  have h5 : strchr (c :: (x' ++ '"' :: b)) '"' = some ('"' :: b) := by
    have := strchr_skip (c :: x') '"' b hq
    simpa using this
  have h6 : (c :: (x' ++ '"' :: b)).takeWhile not_quote = c :: x' := by
    have := takeWhile_append_stop not_quote (c :: x') '"' b
      (fun d hd => by
        simp only [not_quote, bne_iff_ne, ne_eq, decide_eq_true_eq]
        exact fun hdd => hq (hdd ▸ hd))
      (by decide)
    simpa using this
  unfold extract_error_message
  rw [h1]
  dsimp only
  rw [h2]
  dsimp only
  rw [h4, h5]
  dsimp only
  rw [h6]

/-- A response containing the error marker is classified as a failure. -/
theorem interpret_some_of_marker (r u v : List Char) (he : r = u ++ errMarker ++ v) :
    interpret_response r = some (extract_error_message r) := by
  have hs : (strstr r errMarker).isSome = true := by
    apply strstr_isSome_at r errMarker u.length
    rw [he, List.append_assoc, List.drop_left]
    exact isPrefixOf_self_append _ _
  rw [interpret_response, hs]
  rfl

/-- The empty response is classified as success. -/
theorem interpret_nil : interpret_response [] = none := rfl

/-- send_to_daemon after socket, connect and send succeed: one recv, response as received. -/
theorem send_happy (env : Env) (cmd : List Char) (n : Nat)
    (h5 : env.socketOk = true) (h6 : env.connectOk = true) (h7 : env.sendOk = true) :
    (send_to_daemon env cmd n).ok = true ∧
    (send_to_daemon env cmd n).recvs = 1 ∧
    (send_to_daemon env cmd n).response
      = (match env.recvData with | some d => d.take (n - 1) | none => ([] : List Char)) := by
  unfold send_to_daemon
  rw [h5, h6, h7]
  cases env.recvData <;> simp

/-- The run outcome after a fully successful relay is decided by the response interpreter. -/
theorem main_post (env : Env) (r : List Char)
    (h1 : env.exeOk = true) (h2 : read_command env.file 4096 ≠ none) (h3 : env.home ≠ none)
    (h4 : env.socketExists = true) (h5 : env.socketOk = true) (h6 : env.connectOk = true)
    (h7 : env.sendOk = true)
    (h8 : (match env.recvData with | some d => d.take 4095 | none => ([] : List Char)) = r) :
    (main env).exitCode = (match interpret_response r with | some _ => 1 | none => 0) ∧
    (main env).calls = (match interpret_response r with
      | some m => [Presentation.notification cwmErrTitle m]
      | none => []) := by
  obtain ⟨cmd, hcmd⟩ := Option.ne_none_iff_exists'.mp h2
  obtain ⟨hh, hhe⟩ := Option.ne_none_iff_exists'.mp h3
  have hsr := send_happy env cmd 4096 h5 h6 h7
  have hresp : (send_to_daemon env cmd 4096).response = r := by
    rw [hsr.2.2]
    simpa using h8
  unfold main
  rw [h1, hcmd, hhe]
  dsimp only [get_socket_path]
  rw [h4]
  unfold after_send
  rw [hsr.1, hresp]
  cases hi : interpret_response r <;> simp

/-- C1 (amended): for every command of at most 4094 characters, whenever the relay
client reaches its send call the byte sequence passed to `send` is exactly the raw
command bytes followed by a single newline, with no other framing and nothing
truncated.  (At exactly 4095 characters the snprintf into the 4096-byte buffer
truncates away the newline, see `C1_counterexample`.) -/
theorem C1_newline_framing (env : Env) (command : List Char) (n : Nat)
    (hs : env.socketOk = true) (hc : env.connectOk = true)
    (hlen : command.length ≤ 4094) :
    (send_to_daemon env command n).sent = [command ++ ['\n']] := by
  unfold send_to_daemon
  rw [hs, hc]
  have ht : (command ++ ['\n']).take (4096 - 1) = command ++ ['\n'] :=
    List.take_of_length_le (by rw [List.length_append, List.length_singleton]; omega)
  cases env.sendOk <;> cases env.recvData <;> simp [ht]

/-- C1 counterexample: a command of exactly 4095 characters is within the claimed
payload bound, yet the payload passed to `send` is the bare command bytes - the
terminating newline has been truncated away by
`snprintf(cmd_with_newline, sizeof(cmd_with_newline), "%s\n", command)`. -/
theorem C1_counterexample :
    (send_to_daemon baseEnv (List.replicate 4095 'a') 4096).sent = [List.replicate 4095 'a'] ∧
    List.replicate 4095 'a' ≠ List.replicate 4095 'a' ++ ['\n'] ∧
    (List.replicate 4095 'a').length ≤ 4095 := by
  have h45 : (List.replicate 4095 'a').length = 4095 := List.length_replicate 4095 'a'
  have ht : (List.replicate 4095 'a' ++ ['\n']).take (4096 - 1) = List.replicate 4095 'a' := by
    calc (List.replicate 4095 'a' ++ ['\n']).take (4096 - 1)
        = (List.replicate 4095 'a' ++ ['\n']).take (List.replicate 4095 'a').length := by rw [h45]
      _ = List.replicate 4095 'a' := List.take_left _ _
  refine ⟨?_, ?_, le_of_eq h45⟩
  · unfold send_to_daemon baseEnv
    dsimp only
    rw [ht]
    rfl
  · intro h
    have hl := congrArg List.length h
    rw [List.length_append, List.length_singleton, h45] at hl
    omega

/-- C1 witness: a two-character command is sent as the command bytes plus `'\n'`. -/
theorem C1_witness :
    (send_to_daemon baseEnv ("hi".data) 4096).sent = ["hi".data ++ ['\n']] :=
  C1_newline_framing baseEnv ("hi".data) 4096 rfl rfl (by decide)

/-- C2 (amended): the socket locator fails - and the process then exits with
code 1 showing the socket-path dialog, before any socket operation - exactly when
`HOME` is unset (`getenv` returns NULL); when `HOME` is set, including set to the
empty string, it returns `<HOME>/.cwm/cwm.sock`. -/
theorem C2_home_unset (env : Env) :
    (env.home = none →
      get_socket_path env.home 2048 = none ∧
      (env.exeOk = true → read_command env.file 4096 ≠ none →
        (main env).exitCode = 1 ∧
        (main env).calls = [Presentation.dialog cwmErrTitle socketPathFailMsg] ∧
        (main env).opens = 0 ∧ (main env).connects = 0 ∧ (main env).recvs = 0)) ∧
    (∀ h : List Char, env.home = some h → h.length ≤ 2032 →
      get_socket_path env.home 2048 = some (h ++ socketSuffix)) := by
  constructor
  · intro hn
    refine ⟨by rw [hn]; rfl, ?_⟩
    intro h1 h2
    obtain ⟨cmd, hcmd⟩ := Option.ne_none_iff_exists'.mp h2
    unfold main
    rw [h1, hcmd, hn]
    exact ⟨rfl, rfl, rfl, rfl, rfl⟩
  · intro h hh hlen
    have h14 : socketSuffix.length = 14 := rfl
    have hle : (h ++ socketSuffix).length ≤ 2048 - 1 := by
      rw [List.length_append, h14]
      omega
    rw [hh]
    unfold get_socket_path
    dsimp only
    rw [List.take_of_length_le hle]

/-- C2 counterexample: with `HOME` set to the empty string the socket locator does
not fail; it succeeds and returns `/.cwm/cwm.sock`, contradicting the claim that
an empty `HOME` fails. -/
theorem C2_counterexample :
    get_socket_path (some []) 2048 ≠ none ∧
    get_socket_path (some []) 2048 = some ("/.cwm/cwm.sock".data) := by
  constructor
  · decide
  · decide

/-- C2 witness: concrete runs for both conjuncts - `HOME` unset exits 1 with the
socket-path dialog and no socket activity; `HOME = "/home/u"` yields the
formatted path. -/
theorem C2_witness :
    ((main { baseEnv with home := none }).exitCode = 1 ∧
     (main { baseEnv with home := none }).calls = [Presentation.dialog cwmErrTitle socketPathFailMsg] ∧
     (main { baseEnv with home := none }).opens = 0 ∧
     (main { baseEnv with home := none }).connects = 0 ∧
     (main { baseEnv with home := none }).recvs = 0) ∧
    get_socket_path baseEnv.home 2048 = some ("/home/u".data ++ socketSuffix) :=
  ⟨((C2_home_unset { baseEnv with home := none }).1 rfl).2 rfl (by decide),
   (C2_home_unset baseEnv).2 ("/home/u".data) rfl (by decide)⟩

/-- C3 (amended): for every response containing the error marker `"error"` and a
well-formed field `"message": "x"` that is the first occurrence of `"message"` in
the response, where `x` is nonempty, does not start with a space or quote, and
contains no quote character, the interpreter classifies the response as a
failure, extracts `x` exactly, and the process run invokes the non-blocking
notification (not the blocking dialog) with `x` and exits with code 1. -/
theorem C3_error_message_extraction (env : Env) (a x b u v : List Char)
    (he : a ++ msg_field x ++ b = u ++ errMarker ++ v)
    (hfirst : ∀ k, k < a.length → msgMarker.isPrefixOf ((a ++ msg_field x ++ b).drop k) = false)
    (hx0 : x ≠ []) (hsp : x.head? ≠ some ' ') (hq0 : x.head? ≠ some '"') (hq : '"' ∉ x) :
    interpret_response (a ++ msg_field x ++ b) = some x ∧
    (env.exeOk = true → read_command env.file 4096 ≠ none → env.home ≠ none →
     env.socketExists = true → env.socketOk = true → env.connectOk = true → env.sendOk = true →
     env.recvData = some (a ++ msg_field x ++ b) → (a ++ msg_field x ++ b).length ≤ 4095 →
     (main env).exitCode = 1 ∧
     (main env).calls = [Presentation.notification cwmErrTitle x]) := by
  have hint : interpret_response (a ++ msg_field x ++ b) = some x := by
    rw [interpret_some_of_marker _ u v he, extract_msg_of_shape a x b hfirst hx0 hsp hq0 hq]
  refine ⟨hint, ?_⟩
  intro h1 h2 h3 h4 h5 h6 h7 h8 h9
  have hm := main_post env (a ++ msg_field x ++ b) h1 h2 h3 h4 h5 h6 h7
    (by rw [h8]; exact List.take_of_length_le h9)
  rw [hint] at hm
  exact hm

/-- C3 counterexample: the message value `" hi"` contains no embedded quote, yet
the extracted message is `"hi"` - the skip loop also consumes the leading space
of the value, so extraction is not exact as claimed. -/
theorem C3_counterexample :
    interpret_response ("\"error\" \"message\": \" hi\"".data) = some ("hi".data) ∧
    "hi".data ≠ " hi".data := by
  constructor
  · decide
  · decide

/-- C3 witness: a concrete error response whose message `boom` is extracted
exactly, with the notification call and exit code 1. -/
theorem C3_witness :
    interpret_response ("\"error\" ".data ++ msg_field ("boom".data) ++ []) = some ("boom".data) ∧
    (main { baseEnv with
      recvData := some ("\"error\" ".data ++ msg_field ("boom".data) ++ []) }).exitCode = 1 ∧
    (main { baseEnv with
      recvData := some ("\"error\" ".data ++ msg_field ("boom".data) ++ []) }).calls
      = [Presentation.notification cwmErrTitle ("boom".data)] := by
  have h := C3_error_message_extraction
    { baseEnv with recvData := some ("\"error\" ".data ++ msg_field ("boom".data) ++ []) }
    ("\"error\" ".data) ("boom".data) [] [] (" \"message\": \"boom\"".data)
    (by decide) (by decide) (by decide) (by decide) (by decide) (by decide)
  have h2 := h.2 rfl (by decide) (by decide) rfl rfl rfl rfl rfl (by decide)
  exact ⟨h.1, h2.1, h2.2⟩

/-- C4 (amended): the interpreter searches for the `"message"` marker in the
entire response starting from the beginning, not only after the error marker: a
message field occurring entirely before the error marker is used. -/
theorem C4_message_search_scope (a x b1 b2 : List Char)
    (hfirst : ∀ k, k < a.length →
      msgMarker.isPrefixOf ((a ++ msg_field x ++ (b1 ++ errMarker ++ b2)).drop k) = false)
    (hx0 : x ≠ []) (hsp : x.head? ≠ some ' ') (hq0 : x.head? ≠ some '"') (hq : '"' ∉ x) :
    interpret_response (a ++ msg_field x ++ (b1 ++ errMarker ++ b2)) = some x := by
  rw [interpret_some_of_marker _ (a ++ msg_field x ++ b1) b2 (by simp),
    extract_msg_of_shape a x (b1 ++ errMarker ++ b2) hfirst hx0 hsp hq0 hq]

/-- C4 counterexample: in a response whose only `"message"` field precedes the
error marker, the portion after the error marker holds no message field, yet the
interpreter returns `early` (the pre-marker field) instead of the fallback the
claim would require. -/
theorem C4_counterexample :
    interpret_response ("\"message\": \"early\" and \"error\"".data) = some ("early".data) ∧
    "early".data ≠ fallbackMsg := by
  constructor
  · decide
  · decide

/-- C4 witness: a message field placed before the error marker is extracted. -/
theorem C4_witness :
    interpret_response ([] ++ msg_field ("boom".data) ++ (" ".data ++ errMarker ++ [])) =
      some ("boom".data) :=
  C4_message_search_scope [] ("boom".data) (" ".data) []
    (by decide) (by decide) (by decide) (by decide) (by decide)

/-- C5 (confirmed): for every command file whose first line is at most 4095
characters, with or without a trailing newline, the command reader returns that
line with all trailing CR/LF characters removed and no other characters altered
(`rtrim_newlines` only strips trailing `'\r'`/`'\n'`). -/
theorem C5_first_line_trim (L rest : List Char)
    (hnl : '\n' ∉ L) (hlen : L.length ≤ 4095)
    (hrest : rest = [] ∨ ∃ r, rest = '\n' :: r) (hne : L ++ rest ≠ []) :
    read_command (some (L ++ rest)) 4096 = some (rtrim_newlines L) := by
  have h1 : (4096 - 1 : Nat) = 4095 := rfl
  unfold read_command fgets
  dsimp only
  rw [if_neg hne, first_line_append L rest hnl, h1]
  rcases hrest with h | ⟨r, h⟩
  · subst h
    rw [first_line, List.append_nil, List.take_of_length_le hlen]
  · subst h
    rw [first_line]
    rw [if_pos rfl]
    rcases Nat.lt_or_ge L.length 4095 with hl | hl
    · rw [List.take_of_length_le (by rw [List.length_append, List.length_singleton]; omega)]
      dsimp only
      rw [rtrim_newlines_append_nl]
    · have h45 : L.length = 4095 := le_antisymm hlen hl
      rw [List.take_append_of_le_length (le_of_eq h45.symm), ← h45, List.take_length]

/-- C5 witness: the file content `go\r\n` reads back as `go`. -/
theorem C5_witness :
    read_command (some ("go\r".data ++ ['\n'])) 4096 = some (rtrim_newlines ("go\r".data)) :=
  C5_first_line_trim ("go\r".data) (['\n']) (by decide) (by decide)
    (Or.inr ⟨[], rfl⟩) (by decide)

/-- C6 (confirmed): after a successful connect and send the relay client performs
exactly one receive call; when it returns no data the response is the empty
string and the relay client still returns success, and the whole run exits with
code 0 making no dialog or notification call. -/
theorem C6_single_recv (env : Env) (cmd : List Char) (n : Nat)
    (h5 : env.socketOk = true) (h6 : env.connectOk = true) (h7 : env.sendOk = true) :
    (send_to_daemon env cmd n).recvs = 1 ∧
    (env.recvData = none →
      (send_to_daemon env cmd n).response = [] ∧ (send_to_daemon env cmd n).ok = true) ∧
    (env.recvData = none → env.exeOk = true → read_command env.file 4096 ≠ none →
      env.home ≠ none → env.socketExists = true →
      (main env).exitCode = 0 ∧ (main env).calls = []) := by
  have hsr := send_happy env cmd n h5 h6 h7
  refine ⟨hsr.2.1, ?_, ?_⟩
  · intro hrd
    refine ⟨?_, hsr.1⟩
    rw [hsr.2.2, hrd]
  · intro hrd h1 h2 h3 h4
    exact main_post env [] h1 h2 h3 h4 h5 h6 h7 (by rw [hrd])

/-- C6 witness: a concrete run whose receive returns no data - one recv call,
empty response, success, exit code 0, no presentation calls. -/
theorem C6_witness :
    (send_to_daemon baseEnv ("demo".data) 4096).recvs = 1 ∧
    (send_to_daemon baseEnv ("demo".data) 4096).response = [] ∧
    (send_to_daemon baseEnv ("demo".data) 4096).ok = true ∧
    (main baseEnv).exitCode = 0 ∧ (main baseEnv).calls = [] := by
  have h := C6_single_recv baseEnv ("demo".data) 4096 rfl rfl rfl
  have h2 := h.2.1 rfl
  have h3 := h.2.2 rfl rfl (by decide) (by decide) rfl
  exact ⟨h.1, h2.1, h2.2, h3.1, h3.2⟩

/-- C7 (confirmed): when the socket path does not exist the process exits with
code 1, shows the blocking dialog whose message contains the daemon-start
remediation text `cwm daemon start`, and makes no socket connection attempt. -/
theorem C7_daemon_not_running (env : Env)
    (h1 : env.exeOk = true) (h2 : read_command env.file 4096 ≠ none) (h3 : env.home ≠ none)
    (h4 : env.socketExists = false) :
    (main env).exitCode = 1 ∧
    (main env).calls = [Presentation.dialog cwmErrTitle daemonNotRunningMsg] ∧
    (main env).connects = 0 ∧ (main env).opens = 0 ∧
    (strstr daemonNotRunningMsg ("cwm daemon start".data)).isSome = true := by
  obtain ⟨cmd, hcmd⟩ := Option.ne_none_iff_exists'.mp h2
  obtain ⟨hh, hhe⟩ := Option.ne_none_iff_exists'.mp h3
  unfold main
  rw [h1, hcmd, hhe, h4]
  exact ⟨rfl, rfl, rfl, rfl, by decide⟩

/-- C7 witness: a concrete run with the socket path absent. -/
theorem C7_witness :
    (main { baseEnv with socketExists := false }).exitCode = 1 ∧
    (main { baseEnv with socketExists := false }).calls
      = [Presentation.dialog cwmErrTitle daemonNotRunningMsg] ∧
    (main { baseEnv with socketExists := false }).connects = 0 ∧
    (main { baseEnv with socketExists := false }).opens = 0 ∧
    (strstr daemonNotRunningMsg ("cwm daemon start".data)).isSome = true :=
  C7_daemon_not_running { baseEnv with socketExists := false } rfl (by decide) (by decide) rfl

/-- C8 (confirmed): on every exit path of the relay client - successful exchange,
connect failure, send failure, and receive failure or timeout - the number of
close calls equals the number of sockets opened, so the descriptor is never
leaked. -/
theorem C8_socket_always_closed (env : Env) (cmd : List Char) (n : Nat) :
    (send_to_daemon env cmd n).closes = (send_to_daemon env cmd n).opens := by
  obtain ⟨e, f, hh, se, so, co, sd, rd⟩ := env
  unfold send_to_daemon
  cases so <;> cases co <;> cases sd <;> cases rd <;> rfl

/-- C10 (confirmed): every run makes exactly one presentation call when it exits
with code 1 and none when it exits with code 0 - hence at most one per run. -/
theorem C10_at_most_one_presentation (env : Env) :
    ((main env).exitCode = 1 ∧ (main env).calls.length = 1) ∨
    ((main env).exitCode = 0 ∧ (main env).calls.length = 0) := by
  unfold main after_send
  repeat' split
  all_goals first
    | exact Or.inl ⟨rfl, rfl⟩
    | exact Or.inr ⟨rfl, rfl⟩

/-- C9 (confirmed): the interpreter never hard-fails - for every response
containing the error marker in which the message field cannot be located or
parsed (no `"message"` marker at all, no `':'` after the first marker, or no
closing quote after the skipped value), it falls back to `Command failed`, and
the process run invokes a notification with it and exits with code 1. -/
theorem C9_fallback_on_unparseable (r : List Char) (env : Env) (u v : List Char)
    (he : r = u ++ errMarker ++ v)
    (hbad :
      (∀ k, k < r.length → msgMarker.isPrefixOf (r.drop k) = false) ∨
      (∃ a b, r = a ++ (msgMarker ++ b) ∧
        (∀ k, k < a.length → msgMarker.isPrefixOf (r.drop k) = false) ∧ ':' ∉ b) ∨
      (∃ a b1 b2, r = a ++ (msgMarker ++ (b1 ++ ':' :: b2)) ∧
        (∀ k, k < a.length → msgMarker.isPrefixOf (r.drop k) = false) ∧ ':' ∉ b1 ∧
        '"' ∉ b2.dropWhile msg_skip)) :
    interpret_response r = some fallbackMsg ∧
    (env.exeOk = true → read_command env.file 4096 ≠ none → env.home ≠ none →
      env.socketExists = true → env.socketOk = true → env.connectOk = true → env.sendOk = true →
      env.recvData = some r → r.length ≤ 4095 →
      (main env).exitCode = 1 ∧
      (main env).calls = [Presentation.notification cwmErrTitle fallbackMsg]) := by
  have hext : extract_error_message r = fallbackMsg := by
    rcases hbad with h | ⟨a, b, hr, hfirst, hcolon⟩ | ⟨a, b1, b2, hr, hfirst, hc1, hc2⟩
    · unfold extract_error_message
      rw [strstr_none_of_not_found r msgMarker (by decide) h]
    · have h1 : strstr r msgMarker = some (msgMarker ++ b) := by
        rw [hr]
        exact strstr_append_first a (msgMarker ++ b) msgMarker
          (isPrefixOf_self_append _ _) (hr ▸ hfirst)
      have h2 : strchr (msgMarker ++ b) ':' = none := by
        apply strchr_none
        intro hmem
        rcases List.mem_append.mp hmem with hm | hm
        · exact absurd hm (by decide)
        · exact hcolon hm
      unfold extract_error_message
      rw [h1]
      dsimp only
      rw [h2]
    · have h1 : strstr r msgMarker = some (msgMarker ++ (b1 ++ ':' :: b2)) := by
        rw [hr]
        exact strstr_append_first a (msgMarker ++ (b1 ++ ':' :: b2)) msgMarker
          (isPrefixOf_self_append _ _) (hr ▸ hfirst)
      have h2 : strchr (msgMarker ++ (b1 ++ ':' :: b2)) ':' = some (':' :: b2) := by
        have := strchr_skip (msgMarker ++ b1) ':' b2 (by
          intro hmem
          rcases List.mem_append.mp hmem with hm | hm
          · exact absurd hm (by decide)
          · exact hc1 hm)
        simpa using this
      have h3 : strchr (b2.dropWhile msg_skip) '"' = none := strchr_none _ '"' hc2
      unfold extract_error_message
      rw [h1]
      dsimp only
      rw [h2]
      dsimp only
      rw [List.drop_one, List.tail_cons, h3]
  have hint : interpret_response r = some fallbackMsg := by
    rw [interpret_some_of_marker r u v he, hext]
  refine ⟨hint, ?_⟩
  intro h1 h2 h3 h4 h5 h6 h7 h8 h9
  have hm := main_post env r h1 h2 h3 h4 h5 h6 h7
    (by rw [h8]; exact List.take_of_length_le h9)
  rw [hint] at hm
  exact hm

/-- C9 witness: the bare response `"error"` has no message field; the run
notifies `Command failed` and exits 1. -/
theorem C9_witness :
    interpret_response errMarker = some fallbackMsg ∧
    (main { baseEnv with recvData := some errMarker }).exitCode = 1 ∧
    (main { baseEnv with recvData := some errMarker }).calls
      = [Presentation.notification cwmErrTitle fallbackMsg] := by
  have h := C9_fallback_on_unparseable errMarker { baseEnv with recvData := some errMarker } [] []
    (by decide) (Or.inl (by decide))
  have h2 := h.2 rfl (by decide) (by decide) rfl rfl rfl rfl rfl (by decide)
  exact ⟨h.1, h2.1, h2.2⟩

end CwmStub
